import Mathlib

/-!
Shallow embedding of the `WirelessValidator` class
(`src/backend/validators.py`): string helpers that mirror the Python
operations `str.split` (single-character separators), `str.strip`,
substring containment (`in`), the DTS section resolver
(`_find_dts_sections_by_name`), the MQTT-broker and Data-to-Server
expectation matchers, the cleanup engine (`_cleanup_configuration`),
and the `validate_ap_config` orchestrator, together with theorems
checking the behavioural claims about them.
-/

namespace WirelessValidator

/-- Python single-quote character (code 0x27), used in `strip("'\x22")`. -/
def quoteChar : Char := Char.ofNat 39

/-- Python double-quote character (code 0x22). -/
def dquoteChar : Char := Char.ofNat 34

/-- Python `s.split(c)` for a one-character separator: split on every
occurrence of `c`, keeping empty chunks.  The result is never `[]`. -/
def splitOnChar (c : Char) : List Char → List (List Char)
  | [] => [[]]
  | a :: t =>
    match splitOnChar c t with
    | [] => [[]]
    | h :: r => if a = c then [] :: h :: r else (a :: h) :: r

/-- `pySplit s c` is Python `s.split(c)` (single-character separator). -/
def pySplit (s : String) (c : Char) : List String :=
  (splitOnChar c s.toList).map String.mk

/-- `isInfixL pat l` holds when `pat` occurs as a contiguous run in `l`. -/
def isInfixL (pat : List Char) : List Char → Bool
  | [] => pat.isEmpty
  | a :: t => pat.isPrefixOf (a :: t) || isInfixL pat t

/-- Python `pat in s` (substring containment). -/
def strContains (s pat : String) : Bool :=
  isInfixL pat.toList s.toList

/-- Character class stripped by Python `strip("'\x22")`. -/
def isQuoteChar (c : Char) : Bool := c == quoteChar || c == dquoteChar

/-- Python `s.strip(chars)` for a character class `p`: drop matching
characters from both ends. -/
def stripClass (p : Char → Bool) (l : List Char) : List Char :=
  ((l.dropWhile p).reverse.dropWhile p).reverse

/-- Python `s.strip("'\x22")`: remove surrounding single/double quotes. -/
def stripQuotes (s : String) : String :=
  String.mk (stripClass isQuoteChar s.toList)

/-- Whitespace class of Python `str.strip()` (the ones that occur here). -/
def isPyWs (c : Char) : Bool := c == ' ' || c == '\n' || c == '\t' || c == '\r'

/-- Python `s.strip()` (no argument): trim surrounding whitespace. -/
def pyStrip (s : String) : String :=
  String.mk (stripClass isPyWs s.toList)

/-- `result.strip().split("\n")`, the line-splitting idiom the validator
applies to every `uci show` output. -/
def linesOf (s : String) : List String := pySplit (pyStrip s) '\n'

/-- `s.split("=")[1].strip("'\x22") if "=" in s else ""` — the value
extraction idiom used throughout `_validate_ap_config` (note: Python
`split("=")[1]` is the segment between the first and the second `=`,
not everything after the first `=`). -/
def valAfterEq (s : String) : String :=
  if strContains s "=" then stripQuotes ((pySplit s '=').getD 1 "") else ""

/-- Modelled from the spec: the UCI Text Parser contract of spec section 4.1
says values are read as the entire text after the first `=` on the line
("split only on the first `=`"), quotes stripped.  This definition follows
those words (the repository has no separate parser module; the inline idiom
it actually uses is `valAfterEq` above, compared against this one). -/
def specValueAfterFirstEq (s : String) : String :=
  if strContains s "=" then
    stripQuotes (String.mk ((s.toList.dropWhile (fun c => !(c == '='))).drop 1))
  else ""

/-! ### Section resolver (`_find_dts_sections_by_name`) -/

/-- Insertion-ordered string dictionary, the embedding of the Python
`dict` `found_sections`: assigning to an existing key keeps its
position, a new key is appended. -/
def dictInsert (d : List (String × String)) (k v : String) :
    List (String × String) :=
  if d.any (fun p => p.1 == k) then
    d.map (fun p => if p.1 == k then (k, v) else p)
  else d ++ [(k, v)]

/-- Dictionary lookup (`d.get(k)` returning `none` when absent). -/
def dictGet? (d : List (String × String)) (k : String) : Option String :=
  (d.find? (fun p => p.1 == k)).map (fun p => p.2)

/-- Python `k in d` for the dictionary embedding. -/
def dictContains (d : List (String × String)) (k : String) : Bool :=
  d.any (fun p => p.1 == k)

/-- The hardcoded fallback `{collection: "2", output: "3", input: "5"}`
returned by `_find_dts_sections_by_name` when resolution fails. -/
def fallbackSections : List (String × String) :=
  [("collection", "2"), ("output", "3"), ("input", "5")]

/-- The condition under which a line of `uci show data_sender` output is
accepted as the name anchor: `".name=" in line and instance_name in line`,
and the path part before the first `=` splits on `.` into at least three
components whose first is `data_sender`. -/
def anchorOk (instName line : String) : Bool :=
  strContains line ".name=" && strContains line instName &&
    (let pathParts := pySplit ((pySplit line '=').getD 0 "") '.'
     decide (3 ≤ pathParts.length) && (pathParts.getD 0 "" == "data_sender"))

/-- Section id owning an anchor line: `line.split("=")[0].split(".")[1]`. -/
def lineSectionId (line : String) : String :=
  (pySplit ((pySplit line '=').getD 0 "") '.').getD 1 ""

/-- The type-detection loop: the first line containing
`data_sender.<sid>=` gives the section type (quotes stripped); the
dictionary starts as `{"unknown": sid}` and is wholly replaced on a hit. -/
def sectionTypeOf (lines : List String) (sid : String) :
    List (String × String) :=
  match lines.find? (fun l => strContains l ("data_sender." ++ sid ++ "=")) with
  | some tl => [(stripQuotes ((pySplit tl '=').getD 1 ""), sid)]
  | none => [("unknown", sid)]

/-- One iteration of the reference-scanning loop over `ref_line`:
`.input=<sid>` or `.output=<sid>` record the referencing section as the
collection; a line containing both `.input=` and `.output=` is treated as
a collection line whose own `input`/`output` values are then looked up. -/
def refStep (lines : List String) (sid : String)
    (d : List (String × String)) (refLine : String) :
    List (String × String) :=
  if strContains refLine (".input=" ++ sid) then
    dictInsert d "collection" (lineSectionId refLine)
  else if strContains refLine (".output=" ++ sid) then
    dictInsert d "collection" (lineSectionId refLine)
  else if strContains refLine ".input=" && strContains refLine ".output=" then
    let collId := lineSectionId refLine
    let d1 := dictInsert d "collection" collId
    let d2 :=
      match lines.find?
          (fun l => strContains l ("data_sender." ++ collId ++ ".input=")) with
      | some il => dictInsert d1 "input" (stripQuotes ((pySplit il '=').getD 1 ""))
      | none => d1
    match lines.find?
        (fun l => strContains l ("data_sender." ++ collId ++ ".output=")) with
    | some ol => dictInsert d2 "output" (stripQuotes ((pySplit ol '=').getD 1 ""))
    | none => d2
  else d

/-- Body of the anchor branch: determine the type, scan references, then
replace the result with the hardcoded ids when no `collection` key was
established. -/
def anchorResult (lines : List String) (sid : String) :
    List (String × String) :=
  let d := lines.foldl (refStep lines sid) (sectionTypeOf lines sid)
  if dictContains d "collection" then d else fallbackSections

/-- `_find_dts_sections_by_name` on the split line list: the first line
accepted by `anchorOk` anchors resolution; with no anchor the hardcoded
fallback is returned. -/
def findDtsSections (instName : String) (lines : List String) :
    List (String × String) :=
  match lines.find? (anchorOk instName) with
  | some line => anchorResult lines (lineSectionId line)
  | none => fallbackSections

/-- `_find_dts_sections_by_name` on the raw `uci show data_sender` text. -/
def findDtsSectionsText (instName : String) (txt : String) :
    List (String × String) :=
  findDtsSections instName (linesOf txt)

/-- `_find_dts_sections_by_name` including its `except` clause: when the
SSH executor raises (`Except.error`), the hardcoded fallback is returned
and no exception propagates. -/
def findDtsSectionsE (instName : String) (r : Except String String) :
    List (String × String) :=
  match r with
  | Except.error _ => fallbackSections
  | Except.ok txt => findDtsSectionsText instName txt

/-- The `uci show data_sender` text of spec scenario 8.6 (claim C3). -/
def c3text : String :=
  "data_sender.1=collection\ndata_sender.1.name=\x27foo\x27\n" ++
  "data_sender.1.input=\x273\x27\ndata_sender.1.output=\x272\x27\n" ++
  "data_sender.2=output\ndata_sender.3=input"

/-- Line list in which a section name strictly contains the requested
instance name (`foobar` versus `foo`), for claim C5. -/
def c5lines : List String :=
  ["data_sender.1=collection", "data_sender.1.name=\x27foobar\x27"]

/-! ### MQTT broker expectation matcher (lines 380-459 of the source) -/

/-- Inputs of the MQTT-broker check: the expected port
(`str(mqtt_config.get("port", "1883"))`) and the raw outputs of the four
probing commands. -/
structure MqttBrokerInputs where
  expectedPort : String
  mqttEnabled : String
  mqttPort : String
  mqttAnonymous : String
  mqttProcess : String
  deriving DecidableEq, Repr

/-- `"'1'" in mqtt_enabled`. -/
def mqttEnabledOk (i : MqttBrokerInputs) : Bool :=
  strContains i.mqttEnabled "\x271\x27"

/-- `mqtt_port.split("=")[1].strip("'\x22") if "=" in mqtt_port else ""`. -/
def mqttPortValue (i : MqttBrokerInputs) : String := valAfterEq i.mqttPort

/-- `expected_port == mqtt_port_value`. -/
def portMatches (i : MqttBrokerInputs) : Bool :=
  i.expectedPort == mqttPortValue i

/-- `"'1'" in mqtt_anonymous`. -/
def mqttAnonymousOk (i : MqttBrokerInputs) : Bool :=
  strContains i.mqttAnonymous "\x271\x27"

/-- `mqtt_process and "mosquitto" in mqtt_process` (Python truthiness of
the process listing string, then substring test). -/
def mqttProcessOk (i : MqttBrokerInputs) : Bool :=
  !(i.mqttProcess == "") && strContains i.mqttProcess "mosquitto"

/-- `success = all([...])` over the four checks. -/
def mqttBrokerSuccess (i : MqttBrokerInputs) : Bool :=
  mqttEnabledOk i && portMatches i && mqttAnonymousOk i && mqttProcessOk i

/-- The `failed_checks` list: one fixed human-readable entry appended per
failed check, in source order, with the port entry carrying the expected
and actual values. -/
def mqttBrokerFailures (i : MqttBrokerInputs) : List String :=
  (if mqttEnabledOk i then [] else ["MQTT broker not enabled"]) ++
  (if portMatches i then []
   else ["port (expected " ++ i.expectedPort ++ ", got " ++ mqttPortValue i ++ ")"]) ++
  (if mqttAnonymousOk i then [] else ["anonymous access not enabled"]) ++
  (if mqttProcessOk i then [] else ["MQTT process not running"])

/-- Number of failed checks among the four. -/
def mqttFailedCount (i : MqttBrokerInputs) : Nat :=
  (if mqttEnabledOk i then 0 else 1) + (if portMatches i then 0 else 1) +
  (if mqttAnonymousOk i then 0 else 1) + (if mqttProcessOk i then 0 else 1)

/-- The `results["mqtt_broker"]` record: the success flag, the four
per-check detail booleans, and the `failures` list that is attached to the
details only when `success` is false. -/
structure MqttBrokerResult where
  success : Bool
  enabledDetail : Bool
  portDetail : Bool
  anonDetail : Bool
  processDetail : Bool
  failures : Option (List String)
  deriving DecidableEq, Repr

/-- The MQTT-broker branch of `_validate_ap_config` as a record. -/
def validateMqttBroker (i : MqttBrokerInputs) : MqttBrokerResult :=
  let s := mqttBrokerSuccess i
  { success := s
    enabledDetail := mqttEnabledOk i
    portDetail := portMatches i
    anonDetail := mqttAnonymousOk i
    processDetail := mqttProcessOk i
    failures := if s then none else some (mqttBrokerFailures i) }

/-- Placeholder `results["mqtt_broker"]` before (or without) the MQTT
branch running: `{"success": False, "details": {}}`. -/
def mqttBrokerDefault : MqttBrokerResult :=
  { success := false, enabledDetail := false, portDetail := false
    anonDetail := false, processDetail := false, failures := none }

/-- Concrete scenario of claim C1 / spec 8.7: expected port 8883, device
shows `local_port='1883'`, every other check passing. -/
def c1PortOnly : MqttBrokerInputs :=
  { expectedPort := "8883"
    mqttEnabled := "mosquitto.mqtt.enabled=\x271\x27"
    mqttPort := "mosquitto.mqtt.local_port=\x271883\x27"
    mqttAnonymous := "mosquitto.mqtt.anonymous_access=\x271\x27"
    mqttProcess := "1234 root mosquitto -c /etc/mosquitto.conf" }

/-- Concrete all-four-checks-fail inputs for claim C1. -/
def c1AllFail : MqttBrokerInputs :=
  { expectedPort := "8883"
    mqttEnabled := "mosquitto.mqtt.enabled=\x270\x27"
    mqttPort := "mosquitto.mqtt.local_port=\x271883\x27"
    mqttAnonymous := "mosquitto.mqtt.anonymous_access=\x270\x27"
    mqttProcess := "" }

/-! ### Data-to-Server expectation matcher (lines 465-676 of the source) -/

/-- Raw outputs of the six Data-to-Server probing commands. -/
structure DtsRaw where
  dtsInstance : String
  dtsEnabled : String
  mqttServer : String
  mqttTopic : String
  mqttClientId : String
  mqttQos : String
  deriving DecidableEq, Repr

/-- Expected values of the Data-to-Server checks, already defaulted the
way `_validate_ap_config` defaults them from the scenario config. -/
structure DtsExpected where
  instanceName : String
  expectedServer : String
  expectedTopic : String
  expectedClientId : String
  expectedQos : String
  deriving DecidableEq, Repr

/-- `success = all([...])` of the Data-to-Server branch.  The
`mqtt_message_valid` conjunct is commented out in the source
("Temporarily disable message validation for testing"), so the liveness
outcome does not appear here. -/
def dtsSuccessOf (e : DtsExpected) (r : DtsRaw) : Bool :=
  (valAfterEq r.dtsInstance == e.instanceName) &&
  (valAfterEq r.dtsEnabled == "1") &&
  (valAfterEq r.mqttServer == e.expectedServer) &&
  (valAfterEq r.mqttTopic == e.expectedTopic) &&
  (valAfterEq r.mqttClientId == e.expectedClientId) &&
  (valAfterEq r.mqttQos == e.expectedQos)

/-- The `failed_checks` list of the Data-to-Server branch (source order;
the liveness probe, though excluded from `success`, still appends its
entry when it reported false). -/
def dtsFailures (e : DtsExpected) (r : DtsRaw) (mqttMessageValid : Bool) :
    List String :=
  (if valAfterEq r.dtsInstance == e.instanceName then []
   else ["instanceName (expected \x27" ++ e.instanceName ++ "\x27, got \x27" ++
         valAfterEq r.dtsInstance ++ "\x27)"]) ++
  (if valAfterEq r.dtsEnabled == "1" then [] else ["DTS not enabled"]) ++
  (if valAfterEq r.mqttServer == e.expectedServer then []
   else ["server (expected \x27" ++ e.expectedServer ++ "\x27, got \x27" ++
         valAfterEq r.mqttServer ++ "\x27)"]) ++
  (if valAfterEq r.mqttTopic == e.expectedTopic then []
   else ["topic (expected \x27" ++ e.expectedTopic ++ "\x27, got \x27" ++
         valAfterEq r.mqttTopic ++ "\x27)"]) ++
  (if valAfterEq r.mqttClientId == e.expectedClientId then []
   else ["client_id (expected \x27" ++ e.expectedClientId ++ "\x27, got \x27" ++
         valAfterEq r.mqttClientId ++ "\x27)"]) ++
  (if valAfterEq r.mqttQos == e.expectedQos then []
   else ["QoS (expected \x27" ++ e.expectedQos ++ "\x27, got \x27" ++
         valAfterEq r.mqttQos ++ "\x27)"]) ++
  (if mqttMessageValid then [] else ["no MQTT message received"])

/-- The `results["data_to_server"]` record: success flag, the recorded
`mqtt_message_received` detail, and the failure list attached only on
failure. -/
structure DtsResult where
  success : Bool
  mqttMessageReceived : Bool
  failures : Option (List String)
  detailsMsg : Option String
  deriving DecidableEq, Repr

/-- The value-comparison part of the Data-to-Server branch. -/
def validateDts (e : DtsExpected) (r : DtsRaw) (mqttMessageValid : Bool) :
    DtsResult :=
  let s := dtsSuccessOf e r
  { success := s
    mqttMessageReceived := mqttMessageValid
    failures := if s then none else some (dtsFailures e r mqttMessageValid)
    detailsMsg := none }

/-- Placeholder `results["data_to_server"]` before (or without) the branch
running. -/
def dtsDefault : DtsResult :=
  { success := false, mqttMessageReceived := false, failures := none
    detailsMsg := none }

/-! ### Cleanup engine (`_cleanup_configuration`, `clean_all=True` branch) -/

/-- Per-line section-id extraction of the `clean_all` loop: lines with
`=` whose path part splits into at least two components headed by
`data_sender` contribute their second component. -/
def cleanLineId? (line : String) : Option String :=
  if strContains line "=" then
    let parts := pySplit ((pySplit line '=').getD 0 "") '.'
    if decide (2 ≤ parts.length) && (parts.getD 0 "" == "data_sender") then
      some (parts.getD 1 "")
    else none
  else none

/-- One iteration of the `clean_all` accumulation loop; the Python `set`
is modelled as a deduplicated list in first-seen order. -/
def cleanupStep (acc : List String) (line : String) : List String :=
  match cleanLineId? line with
  | some id =>
    if !(id == "settings") && !(acc.contains id) then acc ++ [id] else acc
  | none => acc

/-- `sections_to_delete` computed by the `clean_all=True` branch. -/
def cleanupSections (lines : List String) : List String :=
  lines.foldl cleanupStep []

/-- The type-query command issued before each deletion. -/
def typeCmd (id : String) : String :=
  "uci get " ++ ("data_sender." ++ id ++ " 2>/dev/null || echo \x22unknown\x22")

/-- The per-section deletion command. -/
def delCmd (id : String) : String := "uci delete" ++ (" data_sender." ++ id)

/-- Boolean prefix test on character lists. -/
def isPre : List Char → List Char → Bool
  | [], _ => true
  | _ :: _, [] => false
  | a :: p, b :: l => a == b && isPre p l

/-- A command mutates state by deletion exactly when it starts with
`uci delete`. -/
def isDeleteCmd (c : String) : Bool := isPre "uci delete".toList c.toList

/-- `_cleanup_configuration(clean_all=True)` over a non-raising executor:
returns the Python return value and the list of SSH commands issued.  When
no section is found the function returns `False` before any deletion,
commit or restart. -/
def cleanupRun (ex : String → String) : Bool × List String :=
  let txt := ex "uci show data_sender"
  let secs := cleanupSections (linesOf txt)
  if secs.isEmpty then (false, ["uci show data_sender"])
  else
    (true,
      ["uci show data_sender"] ++
        (secs.map (fun id => [typeCmd id, delCmd id])).flatten ++
        ["uci commit data_sender", "/etc/init.d/data_sender restart"])

/-- Modelled from the spec: the SSH executor (`SSHClient.execute_command`
of `ssh_client.py`, which is not under `src/`) — per spec sections 5 and 7
a failed command "surfaces as an exception to the immediate caller", so it
is modelled as a function into `Except`, `Except.error` standing for a
raised exception. -/
def FallibleExec : Type := String → Except String String

/-- The deletion loop of `_cleanup_configuration` over a fallible
executor.  The loop body has no per-section exception handler, so the
first raised exception stops the loop (it is then caught by the
function-level handler, which returns `False`).  Returns whether the loop
completed without an exception together with the commands issued. -/
def cleanupDeleteLoop (exf : FallibleExec) : List String → Bool × List String
  | [] => (true, [])
  | id :: rest =>
    match exf (typeCmd id) with
    | Except.error _ => (false, [typeCmd id])
    | Except.ok _ =>
      match exf (delCmd id) with
      | Except.error _ => (false, [typeCmd id, delCmd id])
      | Except.ok _ =>
        ((cleanupDeleteLoop exf rest).1,
          typeCmd id :: delCmd id :: (cleanupDeleteLoop exf rest).2)

/-- A fallible executor that raises exactly on the deletion of section
`1` and succeeds on everything else (claim C7). -/
def c7exec : FallibleExec :=
  fun c => if c == delCmd "1" then Except.error "ssh failure" else Except.ok ""

/-! ### Orchestrator (`validate_ap_config` / `_validate_ap_config`) -/

/-- The (already `config`-unwrapped) MQTT scenario configuration; only its
`port` entry is consulted. -/
structure MqttConfig where
  port : Option String
  deriving DecidableEq, Repr

/-- The `server_config` sub-dictionary of a Data-to-Server scenario. -/
structure ServerConfig where
  serverAddress : Option String
  topic : Option String
  clientId : Option String
  qos : Option String
  deriving DecidableEq, Repr

/-- The (already `config`-unwrapped) Data-to-Server scenario
configuration; `serverConfig = none` stands for an absent or empty (hence
falsy) `server_config`. -/
structure DtsConfig where
  instanceName : Option String
  serverConfig : Option ServerConfig
  deriving DecidableEq, Repr

/-- The MQTT-broker branch of `_validate_ap_config`: issue the three
`uci show` probes and the process listing, then match. -/
def runMqttSection (ex : String → String) (mc : MqttConfig) :
    MqttBrokerResult × List String :=
  let i : MqttBrokerInputs :=
    { expectedPort := mc.port.getD "1883"
      mqttEnabled := ex "uci show mosquitto.mqtt.enabled"
      mqttPort := ex "uci show mosquitto.mqtt.local_port"
      mqttAnonymous := ex "uci show mosquitto.mqtt.anonymous_access"
      mqttProcess := ex "ps | grep mosquitto" }
  (validateMqttBroker i,
    ["uci show mosquitto.mqtt.enabled", "uci show mosquitto.mqtt.local_port",
     "uci show mosquitto.mqtt.anonymous_access", "ps | grep mosquitto"])

/-- The Data-to-Server branch of `_validate_ap_config`: resolve sections,
probe the collection and output sections, run the liveness probe when a
`server_config` is present, then match.  `probe` is the outcome
`validate_mqtt_message` would report.  Returns the branch result and the
SSH commands issued. -/
def runDtsSection (ex : String → String) (probe : Bool) (dc : DtsConfig) :
    DtsResult × List String :=
  let instName := dc.instanceName.getD "test_instance"
  let sections := findDtsSectionsText instName (ex "uci show data_sender")
  if !(dictContains sections "collection") then
    ({ dtsDefault with
        detailsMsg := some ("No matching DTS sections found for instance \x27" ++
          instName ++ "\x27") },
      ["uci show data_sender"])
  else
    let collectionId := (dictGet? sections "collection").getD "1"
    let outputId := (dictGet? sections "output").getD "2"
    let nameCmd := "uci show " ++ ("data_sender." ++ collectionId ++ ".name")
    let enabledCmd := "uci show " ++ ("data_sender." ++ collectionId ++ ".enabled")
    let timerCmd :=
      "uci get " ++
        ("data_sender." ++ collectionId ++ ".timer 2>/dev/null || echo \x22\x22")
    let timingCmd :=
      if pyStrip (ex timerCmd) == "period" then
        "uci show " ++ ("data_sender." ++ collectionId ++ ".period")
      else "uci show " ++ ("data_sender." ++ collectionId ++ ".time")
    let outCmds :=
      if outputId == "" then []
      else
        ["uci show " ++ ("data_sender." ++ outputId ++ ".mqtt_host"),
         "uci show " ++ ("data_sender." ++ outputId ++ ".mqtt_topic"),
         "uci show " ++ ("data_sender." ++ outputId ++ ".mqtt_client_id"),
         "uci show " ++ ("data_sender." ++ outputId ++ ".mqtt_qos")]
    let raw : DtsRaw :=
      { dtsInstance := ex nameCmd
        dtsEnabled := ex enabledCmd
        mqttServer :=
          if outputId == "" then ""
          else ex ("uci show " ++ ("data_sender." ++ outputId ++ ".mqtt_host"))
        mqttTopic :=
          if outputId == "" then ""
          else ex ("uci show " ++ ("data_sender." ++ outputId ++ ".mqtt_topic"))
        mqttClientId :=
          if outputId == "" then ""
          else ex ("uci show " ++ ("data_sender." ++ outputId ++ ".mqtt_client_id"))
        mqttQos :=
          if outputId == "" then ""
          else ex ("uci show " ++ ("data_sender." ++ outputId ++ ".mqtt_qos")) }
    let e : DtsExpected :=
      { instanceName := instName
        expectedServer :=
          (dc.serverConfig.bind (fun sc => sc.serverAddress)).getD "test.mosquitto.org"
        expectedTopic := (dc.serverConfig.bind (fun sc => sc.topic)).getD "test/topic"
        expectedClientId :=
          (dc.serverConfig.bind (fun sc => sc.clientId)).getD "test_client"
        expectedQos := (dc.serverConfig.bind (fun sc => sc.qos)).getD "0" }
    let mqttMessageValid := dc.serverConfig.isSome && probe
    (validateDts e raw mqttMessageValid,
      ["uci show data_sender", nameCmd, enabledCmd, timerCmd, timingCmd] ++ outCmds)

/-- Arguments of one `_validate_ap_config` run: the detected test type and
the two optional scenario configurations. -/
structure OrchInput where
  testType : Option String
  mqttConfig : Option MqttConfig
  dtsConfig : Option DtsConfig
  deriving DecidableEq, Repr

/-- Observable outcome of one non-raising `_validate_ap_config` run: the
returned success flag and detail message, both subsystem records, whether
`_cleanup_configuration` was invoked, and the sequence of SSH commands
issued. -/
structure OrchOutcome where
  success : Bool
  mqttRes : MqttBrokerResult
  dtsRes : DtsResult
  detailsMsg : Option String
  cleanupRan : Bool
  trace : List String
  deriving DecidableEq, Repr

/-- The MQTT-broker phase of one run (skipped when not requested). -/
def mqttPartOf (ex : String → String) (inp : OrchInput) :
    MqttBrokerResult × List String :=
  match inp.mqttConfig with
  | some mc => runMqttSection ex mc
  | none => (mqttBrokerDefault, [])

/-- The Data-to-Server phase of one run (skipped when not requested). -/
def dtsPartOf (ex : String → String) (probe : Bool) (inp : OrchInput) :
    DtsResult × List String :=
  match inp.dtsConfig with
  | some dc => runDtsSection ex probe dc
  | none => (dtsDefault, [])

/-- `_validate_ap_config` over a non-raising executor `ex` and a liveness
probe outcome `probe`: run the requested subsystem branches, return early
with a failure when no configuration was provided, otherwise aggregate
overall success and, when the test type is `ssh`, run
`_cleanup_configuration(dts_config, clean_all=True)` before returning. -/
def runValidate (ex : String → String) (probe : Bool) (inp : OrchInput) :
    OrchOutcome :=
  let mqttPart := mqttPartOf ex inp
  let dtsPart := dtsPartOf ex probe inp
  if inp.mqttConfig.isNone && inp.dtsConfig.isNone then
    { success := false, mqttRes := mqttPart.1, dtsRes := dtsPart.1
      detailsMsg := some "No configuration provided for validation"
      cleanupRan := false, trace := mqttPart.2 ++ dtsPart.2 }
  else
    let cleanPart :=
      if inp.testType == some "ssh" then (true, (cleanupRun ex).2)
      else (false, ([] : List String))
    { success :=
        (inp.mqttConfig.isNone || mqttPart.1.success) &&
        (inp.dtsConfig.isNone || dtsPart.1.success)
      mqttRes := mqttPart.1, dtsRes := dtsPart.1, detailsMsg := none
      cleanupRan := cleanPart.1
      trace := mqttPart.2 ++ dtsPart.2 ++ cleanPart.2 }

/-- Outcome of awaiting the inner `_validate_ap_config` under the
120-second `asyncio.wait_for` ceiling: either the inner call completed
with its result, or the ceiling expired (`asyncio.TimeoutError`). -/
inductive InnerOutcome where
  | completes (out : OrchOutcome)
  | timesOut
  deriving DecidableEq, Repr

/-- What the `validate_ap_config` wrapper returns to its caller. -/
structure WrapResult where
  success : Bool
  detailsMsg : Option String
  inner : Option OrchOutcome
  deriving DecidableEq, Repr

/-- The `validate_ap_config` wrapper: pass a completed inner result
through; convert a timeout of the inner call into the failure record
`{"success": False, "details": "Validation process timed out"}` instead of
propagating the exception. -/
def validateApConfigWrap (o : InnerOutcome) : WrapResult :=
  match o with
  | InnerOutcome.completes out =>
    { success := out.success, detailsMsg := none, inner := some out }
  | InnerOutcome.timesOut =>
    { success := false, detailsMsg := some "Validation process timed out"
      inner := none }

/-- An executor whose every command returns the empty string. -/
def exEmpty : String → String := fun _ => ""

/-- An executor describing a device whose `data_sender` package holds a
`settings` section and one input section (id 1); every command returns
that same `uci show data_sender` text. -/
def exDevice : String → String :=
  fun _ =>
    "data_sender.settings=settings\ndata_sender.1=input\n" ++
    "data_sender.1.plugin=\x27modbus\x27"

/-- A UCI line whose value itself contains `=` (claim C6). -/
def c6line : String := "data_sender.3.mqtt_host=\x27a=b\x27"

/-- Concrete orchestrator input with only an MQTT configuration (used to
instantiate the amended overall-success statement of claim C2). -/
def c2winp : OrchInput :=
  { testType := none, mqttConfig := some { port := some "1883" }
    dtsConfig := none }

/-- Concrete orchestrator input with only an MQTT configuration under the
`ssh` test type (used to instantiate the amended statement of C10). -/
def c10winp : OrchInput :=
  { testType := some "ssh", mqttConfig := some { port := some "1883" }
    dtsConfig := none }

/-- Concrete orchestrator input with an MQTT configuration under the
`gui` test type (non-`ssh` side of C10). -/
def c10ginp : OrchInput :=
  { testType := some "gui", mqttConfig := some { port := some "1883" }
    dtsConfig := none }

end WirelessValidator

namespace WirelessValidator

/-! ### Helper lemmas about the string primitives -/

theorem splitOnChar_ne_nil (c : Char) (l : List Char) : splitOnChar c l ≠ [] := by
  induction l with
  | nil => simp [splitOnChar]
  | cons a t ih =>
    simp only [splitOnChar]
    cases h : splitOnChar c t with
    | nil => exact absurd h ih
    | cons hh r => by_cases hac : a = c <;> simp [hac]

theorem splitOnChar_head (c : Char) (v : List Char) :
    ∃ r, splitOnChar c v = (v.takeWhile (fun a => !(a == c))) :: r := by
  induction v with
  | nil => exact ⟨[], rfl⟩
  | cons a t ih =>
    obtain ⟨r, hr⟩ := ih
    by_cases hac : a = c
    · exact ⟨t.takeWhile (fun x => !(x == c)) :: r,
        by simp [splitOnChar, hr, hac]⟩
    · exact ⟨r, by simp [splitOnChar, hr, hac]⟩

theorem splitOnChar_not_mem (c : Char) (v : List Char) (h : c ∉ v) :
    splitOnChar c v = [v] := by
  induction v with
  | nil => rfl
  | cons a t ih =>
    have hat : c ∉ t := fun hm => h (List.mem_cons_of_mem _ hm)
    have hac : ¬ a = c := fun he => h (by simp [he])
    simp [splitOnChar, ih hat, hac]

theorem splitOnChar_append (c : Char) (k v : List Char) (hk : c ∉ k) :
    splitOnChar c (k ++ c :: v) = k :: splitOnChar c v := by
  induction k with
  | nil =>
    simp only [List.nil_append, splitOnChar]
    cases h : splitOnChar c v with
    | nil => exact absurd h (splitOnChar_ne_nil c v)
    | cons hh r => simp
  | cons a t ih =>
    have hat : c ∉ t := fun hm => hk (List.mem_cons_of_mem _ hm)
    have hac : ¬ a = c := fun he => hk (by simp [he])
    simp [splitOnChar, ih hat, hac]

theorem isInfixL_singleton (c : Char) (l : List Char) :
    isInfixL [c] l = true ↔ c ∈ l := by
  induction l with
  | nil => simp [isInfixL]
  | cons a t ih =>
    simp [isInfixL, List.isPrefixOf, ih, List.mem_cons]

theorem takeWhile_of_not_mem (c : Char) (v : List Char) (h : c ∉ v) :
    v.takeWhile (fun a => !(a == c)) = v := by
  induction v with
  | nil => rfl
  | cons a t ih =>
    have hat : c ∉ t := fun hm => h (List.mem_cons_of_mem _ hm)
    have hac : ¬ a = c := fun he => h (by simp [he])
    simp [List.takeWhile_cons, hac, ih hat]

theorem dropWhile_append_not_mem (c : Char) (k v : List Char) (hk : c ∉ k) :
    (k ++ c :: v).dropWhile (fun a => !(a == c)) = c :: v := by
  induction k with
  | nil => simp [List.dropWhile_cons]
  | cons a t ih =>
    have hat : c ∉ t := fun hm => hk (List.mem_cons_of_mem _ hm)
    have hac : ¬ a = c := fun he => hk (by simp [he])
    simp [List.dropWhile_cons, hac, ih hat]

theorem isPre_self_append (p t : List Char) : isPre p (p ++ t) = true := by
  induction p with
  | nil => rfl
  | cons a q ih => simp [isPre, ih]

theorem isDeleteCmd_delCmd (id : String) : isDeleteCmd (delCmd id) = true := by
  show isPre "uci delete".toList
    ("uci delete".toList ++ (" data_sender." ++ id).toList) = true
  exact isPre_self_append _ _

theorem isDeleteCmd_show (s : String) : isDeleteCmd ("uci show " ++ s) = false := rfl

theorem isDeleteCmd_get (s : String) : isDeleteCmd ("uci get " ++ s) = false := rfl

theorem strContains_append_eq (k v : List Char) :
    strContains (String.mk (k ++ '=' :: v)) "=" = true := by
  show isInfixL [('=' : Char)] (k ++ '=' :: v) = true
  exact (isInfixL_singleton '=' _).mpr
    (List.mem_append_right _ (List.mem_cons_self _ _))

/-- The split-based value extraction evaluated on a well-formed line
`key=value` (no `=` inside the key): it yields the value only up to the
next `=`, quotes stripped. -/
theorem valAfterEq_split (k v : List Char) (hk : '=' ∉ k) :
    valAfterEq (String.mk (k ++ '=' :: v)) =
      stripQuotes (String.mk (v.takeWhile (fun a => !(a == '=')))) := by
  obtain ⟨r, hr⟩ := splitOnChar_head '=' v
  simp only [valAfterEq, strContains_append_eq k v, if_true]
  show stripQuotes ((pySplit (String.mk (k ++ '=' :: v)) '=').getD 1 "") = _
  unfold pySplit
  rw [show (String.mk (k ++ '=' :: v)).toList = k ++ '=' :: v from rfl,
    splitOnChar_append '=' k v hk, hr]
  simp [List.getD]

/-! ### Claim theorems -/

/-- C1: for every MQTT broker validation, all four checks (enabled, port,
anonymous, process) are evaluated and the overall success is their
conjunction; on failure the failures list holds exactly one entry per
failed check; in the concrete port-only-failure scenario (expected 8883,
actual 1883) the result is failure with exactly
`["port (expected 8883, got 1883)"]`, and with all four checks failing
the list has length 4. -/
theorem c1_mqtt_matcher_completeness :
    (∀ i : MqttBrokerInputs,
      (validateMqttBroker i).success =
        (mqttEnabledOk i && portMatches i && mqttAnonymousOk i && mqttProcessOk i) ∧
      ((validateMqttBroker i).success = false →
        (validateMqttBroker i).failures = some (mqttBrokerFailures i) ∧
        (mqttBrokerFailures i).length = mqttFailedCount i)) ∧
    validateMqttBroker c1PortOnly =
      { success := false, enabledDetail := true, portDetail := false
        anonDetail := true, processDetail := true
        failures := some ["port (expected 8883, got 1883)"] } ∧
    (validateMqttBroker c1AllFail).success = false ∧
    (mqttBrokerFailures c1AllFail).length = 4 := by
  refine ⟨fun i => ⟨rfl, fun hf => ?_⟩, by decide, by decide, by decide⟩
  have hs : mqttBrokerSuccess i = false := hf
  constructor
  · simp [validateMqttBroker, hs]
  · cases h1 : mqttEnabledOk i <;> cases h2 : portMatches i <;>
      cases h3 : mqttAnonymousOk i <;> cases h4 : mqttProcessOk i <;>
      simp [mqttBrokerFailures, mqttFailedCount, h1, h2, h3, h4]

/-- Witness for C1: the all-fail inputs instantiate the failure-list
completeness statement. -/
theorem c1_matcher_witness :
    (validateMqttBroker c1AllFail).failures = some (mqttBrokerFailures c1AllFail) ∧
    (mqttBrokerFailures c1AllFail).length = mqttFailedCount c1AllFail :=
  (c1_mqtt_matcher_completeness.1 c1AllFail).2 (by decide)

/-- C3 (counterexample): on the scenario text of claim C3 the resolver
returns only `{collection: "1"}` — the `output` and `input` keys claimed
to be `"2"` and `"3"` are absent. -/
theorem c3_scenario_counterexample :
    findDtsSectionsText "foo" c3text = [("collection", "1")] ∧
    dictGet? (findDtsSectionsText "foo" c3text) "output" = none ∧
    dictGet? (findDtsSectionsText "foo" c3text) "input" = none := by decide

/-- C3 (amended): the resolver anchored at the collection section maps
`collection` to `"1"` and produces no `output` or `input` entries, since
the reference scan compares the unquoted anchor id against quoted values
and only recognises sections that reference the anchor. -/
theorem c3_scenario_amended :
    dictGet? (findDtsSectionsText "foo" c3text) "collection" = some "1" ∧
    dictContains (findDtsSectionsText "foo" c3text) "output" = false ∧
    dictContains (findDtsSectionsText "foo" c3text) "input" = false := by decide

/-- C4: when no line of the UCI text contains `.name=` together with the
instance name, the resolver returns the hardcoded fallback
`{collection: "2", output: "3", input: "5"}`, and when the SSH executor
raises, the same fallback is returned instead of propagating the
exception. -/
theorem c4_fallback_determinism (instName : String) (lines : List String)
    (h : ∀ l ∈ lines,
      ¬(strContains l ".name=" = true ∧ strContains l instName = true)) :
    findDtsSections instName lines = fallbackSections ∧
    (∀ msg : String,
      findDtsSectionsE instName (Except.error msg) = fallbackSections) := by
  refine ⟨?_, fun msg => rfl⟩
  unfold findDtsSections
  have hf : lines.find? (anchorOk instName) = none := by
    rw [List.find?_eq_none]
    intro l hl hanch
    simp only [anchorOk, Bool.and_eq_true] at hanch
    exact h l hl ⟨hanch.1.1, hanch.1.2⟩
  rw [hf]

/-- Witness for C4: a text with no name line at all resolves to the
fallback. -/
theorem c4_fallback_witness :
    findDtsSections "nope" ["data_sender.1=collection"] = fallbackSections :=
  (c4_fallback_determinism "nope" ["data_sender.1=collection"] (by decide)).1

/-- C5 (counterexample): for instance name `foo`, the line naming its
section `foobar` is accepted as the anchor (the resolver then returns the
anchored result, not the fallback), refuting the exact-match claim. -/
theorem c5_substring_counterexample :
    c5lines.find? (anchorOk "foo") = some "data_sender.1.name=\x27foobar\x27" ∧
    findDtsSections "foo" c5lines = [("collection", "1")] ∧
    findDtsSections "foo" c5lines ≠ fallbackSections := by decide

/-- C5 (amended): the anchor test is substring containment of the
instance name anywhere in the line — a name that merely contains the
instance name is chosen — while a text whose lines never contain the
instance name as a substring always resolves to the fallback. -/
theorem c5_substring_anchor_amended :
    anchorOk "foo" "data_sender.1.name=\x27foobar\x27" = true ∧
    (∀ inst : String, ∀ lines : List String,
      (∀ l ∈ lines, strContains l inst = false) →
      findDtsSections inst lines = fallbackSections) := by
  refine ⟨by decide, fun inst lines h => ?_⟩
  unfold findDtsSections
  have hf : lines.find? (anchorOk inst) = none := by
    rw [List.find?_eq_none]
    intro l hl hanch
    simp only [anchorOk, Bool.and_eq_true] at hanch
    simp [h l hl] at hanch
  rw [hf]

/-- Witness for C5's amended statement. -/
theorem c5_substring_anchor_witness :
    findDtsSections "zz" ["data_sender.1.name=\x27other\x27"] = fallbackSections :=
  c5_substring_anchor_amended.2 "zz" ["data_sender.1.name=\x27other\x27"]
    (by decide)

/-- C6 (counterexample): on the line `data_sender.3.mqtt_host='a=b'` the
validator extracts `a` (the segment between the first and second `=`),
not the claimed full value `a=b` after the first `=`. -/
theorem c6_split_counterexample :
    valAfterEq c6line = "a" ∧ specValueAfterFirstEq c6line = "a=b" ∧
    valAfterEq c6line ≠ specValueAfterFirstEq c6line := by decide

/-- C6 (amended): for a line `key=value` with no `=` inside the key, the
extracted value is the text between the first and the second `=` (the
value truncated at its first `=`), quotes stripped; this agrees with the
claimed everything-after-the-first-`=` rule exactly when the value
contains no `=`. -/
theorem c6_value_extraction_amended (k v : List Char) (hk : '=' ∉ k) :
    valAfterEq (String.mk (k ++ '=' :: v)) =
      stripQuotes (String.mk (v.takeWhile (fun a => !(a == '=')))) ∧
    ('=' ∉ v →
      specValueAfterFirstEq (String.mk (k ++ '=' :: v)) = stripQuotes (String.mk v) ∧
      valAfterEq (String.mk (k ++ '=' :: v)) =
        specValueAfterFirstEq (String.mk (k ++ '=' :: v))) := by
  refine ⟨valAfterEq_split k v hk, fun hv => ?_⟩
  have h1 : specValueAfterFirstEq (String.mk (k ++ '=' :: v)) =
      stripQuotes (String.mk v) := by
    simp only [specValueAfterFirstEq, strContains_append_eq k v, if_true]
    rw [show (String.mk (k ++ '=' :: v)).toList = k ++ '=' :: v from rfl,
      dropWhile_append_not_mem '=' k v hk]
    simp
  have h2 : valAfterEq (String.mk (k ++ '=' :: v)) = stripQuotes (String.mk v) := by
    rw [valAfterEq_split k v hk, takeWhile_of_not_mem '=' v hv]
  exact ⟨h1, h2.trans h1.symm⟩

/-- Witness for C6's amended statement. -/
theorem c6_value_extraction_witness :
    valAfterEq (String.mk (['k'] ++ '=' :: ['a'])) =
      stripQuotes (String.mk (['a'].takeWhile (fun a => !(a == '=')))) :=
  (c6_value_extraction_amended ['k'] ['a'] (by decide)).1

/-- C8: when the inner validation exceeds the 120-second ceiling, the
`validate_ap_config` wrapper returns a failure record with the
explanatory detail string instead of raising; a completed inner run is
passed through unchanged. -/
theorem c8_timeout_to_failure :
    validateApConfigWrap InnerOutcome.timesOut =
      { success := false, detailsMsg := some "Validation process timed out"
        inner := none } ∧
    (∀ out : OrchOutcome, validateApConfigWrap (InnerOutcome.completes out) =
      { success := out.success, detailsMsg := none, inner := some out }) :=
  ⟨rfl, fun _ => rfl⟩

/-- C7 (counterexample): with discovered sections `{1, 2}` and an SSH
executor raising on the deletion of section 1, the deletion loop stops:
section 2 never receives a deletion attempt — refuting per-section
best-effort deletion. -/
theorem c7_abort_counterexample :
    cleanupDeleteLoop c7exec ["1", "2"] = (false, [typeCmd "1", delCmd "1"]) ∧
    delCmd "2" ∉ (cleanupDeleteLoop c7exec ["1", "2"]).2 := by decide

/-- C7 (amended): the deletion loop has no per-section exception
handling: an exception raised while deleting one section ends the loop at
once, with exactly that section's two commands issued and none of the
remaining sections attempted (the function-level handler then logs and
returns `False`); only when every command succeeds does each discovered
section get its own deletion attempt. -/
theorem c7_per_section_amended (exf : FallibleExec) (id : String)
    (rest : List String) (s msg : String)
    (ht : exf (typeCmd id) = Except.ok s)
    (hd : exf (delCmd id) = Except.error msg) :
    cleanupDeleteLoop exf (id :: rest) = (false, [typeCmd id, delCmd id]) ∧
    (∀ exg : FallibleExec, ∀ secs : List String,
      (∀ c : String, ∃ out : String, exg c = Except.ok out) →
      (cleanupDeleteLoop exg secs).1 = true ∧
      ∀ sid ∈ secs, delCmd sid ∈ (cleanupDeleteLoop exg secs).2) := by
  constructor
  · simp [cleanupDeleteLoop, ht, hd]
  · intro exg secs hok
    induction secs with
    | nil => simp [cleanupDeleteLoop]
    | cons a t ih =>
      obtain ⟨o1, h1⟩ := hok (typeCmd a)
      obtain ⟨o2, h2⟩ := hok (delCmd a)
      refine ⟨by simp [cleanupDeleteLoop, h1, h2, ih.1], ?_⟩
      intro sid hsid
      rcases List.mem_cons.mp hsid with rfl | hmem
      · simp [cleanupDeleteLoop, h1, h2]
      · simp [cleanupDeleteLoop, h1, h2]
        exact Or.inr (Or.inr (ih.2 sid hmem))

/-- Witness for C7's amended statement. -/
theorem c7_per_section_witness :
    cleanupDeleteLoop c7exec ["1"] = (false, [typeCmd "1", delCmd "1"]) :=
  (c7_per_section_amended c7exec "1" [] "" "ssh failure" rfl rfl).1

/-! ### Lemmas about the cleanup section scan and the orchestrator -/

theorem contains_iff_mem (acc : List String) (j : String) :
    acc.contains j = true ↔ j ∈ acc := by
  simp [List.contains]

theorem mem_cleanupIns (acc : List String) (j id : String) :
    (id ∈ if (!(j == "settings") && !(acc.contains j)) = true
      then acc ++ [j] else acc) ↔
      id ∈ acc ∨ (id ≠ "settings" ∧ j = id) := by
  by_cases hc : (!(j == "settings") && !(acc.contains j)) = true
  · rw [if_pos hc]
    simp only [Bool.and_eq_true, Bool.not_eq_true', beq_eq_false_iff_ne] at hc
    simp only [List.mem_append, List.mem_singleton]
    constructor
    · rintro (hm | rfl)
      · exact Or.inl hm
      · exact Or.inr ⟨hc.1, rfl⟩
    · rintro (hm | ⟨hne, rfl⟩)
      · exact Or.inl hm
      · exact Or.inr rfl
  · rw [if_neg hc]
    simp only [Bool.and_eq_true, Bool.not_eq_true', beq_eq_false_iff_ne,
      not_and] at hc
    constructor
    · exact Or.inl
    · rintro (hm | ⟨hne, rfl⟩)
      · exact hm
      · have h1 := hc hne
        cases hb : acc.contains j with
        | false => exact absurd hb h1
        | true => exact (contains_iff_mem acc j).mp hb

theorem mem_cleanupStep (acc : List String) (line id : String) :
    id ∈ cleanupStep acc line ↔
      id ∈ acc ∨ (id ≠ "settings" ∧ cleanLineId? line = some id) := by
  unfold cleanupStep
  cases h : cleanLineId? line with
  | none => simp
  | some j =>
    refine (mem_cleanupIns acc j id).trans ?_
    simp only [Option.some.injEq]

theorem mem_foldl_cleanupStep (ls : List String) :
    ∀ acc id, id ∈ ls.foldl cleanupStep acc ↔
      id ∈ acc ∨ (id ≠ "settings" ∧ ∃ l ∈ ls, cleanLineId? l = some id) := by
  induction ls with
  | nil => intro acc id; simp
  | cons l t ih =>
    intro acc id
    rw [List.foldl_cons, ih, mem_cleanupStep]
    constructor
    · rintro ((hm | ⟨hne, hl⟩) | ⟨hne, w, hw, hwe⟩)
      · exact Or.inl hm
      · exact Or.inr ⟨hne, l, List.mem_cons_self _ _, hl⟩
      · exact Or.inr ⟨hne, w, List.mem_cons_of_mem _ hw, hwe⟩
    · rintro (hm | ⟨hne, w, hw, hwe⟩)
      · exact Or.inl (Or.inl hm)
      · rcases List.mem_cons.mp hw with rfl | hw2
        · exact Or.inl (Or.inr ⟨hne, hwe⟩)
        · exact Or.inr ⟨hne, w, hw2, hwe⟩

/-- The set of sections the `clean_all` branch deletes is exactly the
section ids occurring in the listing, minus `settings`. -/
theorem mem_cleanupSections (lines : List String) (id : String) :
    id ∈ cleanupSections lines ↔
      id ≠ "settings" ∧ ∃ l ∈ lines, cleanLineId? l = some id := by
  simpa [cleanupSections] using mem_foldl_cleanupStep lines [] id

theorem delCmd_mem_cleanupRun (ex : String → String) (id : String)
    (hid : id ∈ cleanupSections (linesOf (ex "uci show data_sender"))) :
    delCmd id ∈ (cleanupRun ex).2 := by
  have hne : (cleanupSections (linesOf (ex "uci show data_sender"))).isEmpty
      = false := by
    cases hcs : cleanupSections (linesOf (ex "uci show data_sender")) with
    | nil => rw [hcs] at hid; cases hid
    | cons a t => simp
  simp only [cleanupRun, hne, Bool.false_eq_true, if_false]
  refine List.mem_append_left _ (List.mem_append_right _ ?_)
  rw [List.mem_flatten]
  exact ⟨[typeCmd id, delCmd id], List.mem_map_of_mem _ hid, by simp⟩

theorem commit_restart_mem_cleanupRun (ex : String → String)
    (hne : cleanupSections (linesOf (ex "uci show data_sender")) ≠ []) :
    "uci commit data_sender" ∈ (cleanupRun ex).2 ∧
    "/etc/init.d/data_sender restart" ∈ (cleanupRun ex).2 := by
  have hne2 : (cleanupSections (linesOf (ex "uci show data_sender"))).isEmpty
      = false := by
    cases hcs : cleanupSections (linesOf (ex "uci show data_sender")) with
    | nil => exact absurd hcs hne
    | cons a t => simp
  simp only [cleanupRun, hne2, Bool.false_eq_true, if_false]
  exact ⟨List.mem_append_right _ (by simp), List.mem_append_right _ (by simp)⟩

theorem dictContains_anchorResult (lines : List String) (sid : String) :
    dictContains (anchorResult lines sid) "collection" = true := by
  simp only [anchorResult]
  split
  · assumption
  · decide

/-- The resolver always returns a dictionary containing `collection`
(anchored results fall back to the hardcoded ids when the key is absent,
and the no-anchor fallback contains it), so the "no matching DTS
sections" branch of `_validate_ap_config` is unreachable. -/
theorem collection_mem_findDtsSectionsText (instName txt : String) :
    dictContains (findDtsSectionsText instName txt) "collection" = true := by
  unfold findDtsSectionsText findDtsSections
  cases h : (linesOf txt).find? (anchorOk instName) with
  | none =>
    show dictContains fallbackSections "collection" = true
    decide
  | some line => exact dictContains_anchorResult _ _

theorem no_delete_mqttPart (ex : String → String) (inp : OrchInput) :
    ∀ c ∈ (mqttPartOf ex inp).2, isDeleteCmd c = false := by
  unfold mqttPartOf
  cases hm : inp.mqttConfig with
  | none => simp
  | some mc =>
    intro c hc
    unfold runMqttSection at hc
    simp only [List.mem_cons, List.not_mem_nil, or_false] at hc
    rcases hc with rfl | rfl | rfl | rfl <;> decide

theorem no_delete_dtsPart (ex : String → String) (probe : Bool)
    (inp : OrchInput) :
    ∀ c ∈ (dtsPartOf ex probe inp).2, isDeleteCmd c = false := by
  unfold dtsPartOf
  cases hd : inp.dtsConfig with
  | none => simp
  | some dc =>
    intro c hc
    unfold runDtsSection at hc
    simp only [collection_mem_findDtsSectionsText, Bool.not_true,
      Bool.false_eq_true, if_false, List.mem_append, List.mem_cons,
      List.not_mem_nil, or_false] at hc
    rcases hc with (rfl | rfl | rfl | rfl | rfl) | hrest
    · decide
    · exact isDeleteCmd_show _
    · exact isDeleteCmd_show _
    · exact isDeleteCmd_get _
    · split <;> exact isDeleteCmd_show _
    · split at hrest
      · cases hrest
      · simp only [List.mem_cons, List.not_mem_nil, or_false] at hrest
        rcases hrest with rfl | rfl | rfl | rfl <;> exact isDeleteCmd_show _

/-- The shape of every run with at least one requested subsystem: the
no-configuration early return is skipped, success is the conjunction over
requested subsystems, and the cleanup phase's commands are appended
exactly when the test type is `ssh`. -/
theorem runValidate_config (ex : String → String) (probe : Bool)
    (inp : OrchInput) (h : inp.mqttConfig.isSome ∨ inp.dtsConfig.isSome) :
    runValidate ex probe inp =
      { success :=
          (inp.mqttConfig.isNone || (mqttPartOf ex inp).1.success) &&
          (inp.dtsConfig.isNone || (dtsPartOf ex probe inp).1.success)
        mqttRes := (mqttPartOf ex inp).1
        dtsRes := (dtsPartOf ex probe inp).1
        detailsMsg := none
        cleanupRan := (inp.testType == some "ssh")
        trace := (mqttPartOf ex inp).2 ++ (dtsPartOf ex probe inp).2 ++
          (if inp.testType == some "ssh" then (cleanupRun ex).2 else []) } := by
  have hc : (inp.mqttConfig.isNone && inp.dtsConfig.isNone) = false := by
    cases hm : inp.mqttConfig <;> cases hd : inp.dtsConfig <;> simp_all
  unfold runValidate
  simp only [hc, Bool.false_eq_true, if_false]
  by_cases hssh : (inp.testType == some "ssh") = true <;> simp [hssh]

/-- C2 (counterexample): with both configuration arguments null the call
returns success `false` and the "No configuration provided for
validation" detail — not the vacuous truth of an empty conjunction. -/
theorem c2_no_config_counterexample :
    (runValidate exEmpty false
      { testType := none, mqttConfig := none, dtsConfig := none }).success
        = false ∧
    (runValidate exEmpty false
      { testType := none, mqttConfig := none, dtsConfig := none }).detailsMsg =
      some "No configuration provided for validation" := by decide

/-- C2 (amended): whenever at least one subsystem is requested, overall
success equals the conjunction of the success flags over the requested
subsystems, a subsystem whose config is null being vacuously successful;
with both configs null the call instead returns the dedicated
no-configuration failure record. -/
theorem c2_overall_success_amended (ex : String → String) (probe : Bool)
    (inp : OrchInput) (h : inp.mqttConfig.isSome ∨ inp.dtsConfig.isSome) :
    (runValidate ex probe inp).success =
      ((inp.mqttConfig.isNone || (runValidate ex probe inp).mqttRes.success) &&
       (inp.dtsConfig.isNone || (runValidate ex probe inp).dtsRes.success)) := by
  rw [runValidate_config ex probe inp h]

/-- Witness for C2's amended statement. -/
theorem c2_overall_success_witness :
    (runValidate exEmpty false c2winp).success =
      ((c2winp.mqttConfig.isNone ||
        (runValidate exEmpty false c2winp).mqttRes.success) &&
       (c2winp.dtsConfig.isNone ||
        (runValidate exEmpty false c2winp).dtsRes.success)) :=
  c2_overall_success_amended exEmpty false c2winp (Or.inl rfl)

/-- C9: the Data-to-Server success flag is identical in two runs that
differ only in the MQTT liveness probe outcome (the probe does not gate
success), while the probe outcome is still recorded in the
`mqtt_message_received` detail (the probe runs only when a
`server_config` is present). -/
theorem c9_liveness_not_gating (ex : String → String) (dc : DtsConfig) :
    ((runDtsSection ex true dc).1.success =
      (runDtsSection ex false dc).1.success) ∧
    (∀ p : Bool, (runDtsSection ex p dc).1.mqttMessageReceived =
      (dc.serverConfig.isSome && p)) := by
  constructor
  · unfold runDtsSection
    simp [collection_mem_findDtsSectionsText, validateDts]
  · intro p
    unfold runDtsSection
    simp [collection_mem_findDtsSectionsText, validateDts]

/-- C10 (counterexample): under test type `ssh` with both configs null —
a non-exception, failed validation run — the early no-configuration
return skips cleanup entirely: no command at all is issued even though
the device listing holds deletable sections. -/
theorem c10_no_config_counterexample :
    (runValidate exDevice false
      { testType := some "ssh", mqttConfig := none
        dtsConfig := none }).cleanupRan = false ∧
    (runValidate exDevice false
      { testType := some "ssh", mqttConfig := none
        dtsConfig := none }).trace = [] ∧
    cleanupSections (linesOf (exDevice "uci show data_sender")) ≠ [] := by decide

/-- C10 (amended): in every non-exception run with at least one requested
subsystem: under test type `ssh` the run invokes
`_cleanup_configuration(clean_all=True)` — the trace gets one deletion
command per section id of the device's `data_sender` listing other than
`settings`, plus commit and service restart when that set is non-empty —
while under every other test type no command of the run is a deletion
command. -/
theorem c10_cleanup_frame_amended (ex : String → String) (probe : Bool)
    (inp : OrchInput) (h : inp.mqttConfig.isSome ∨ inp.dtsConfig.isSome) :
    (inp.testType = some "ssh" →
      (runValidate ex probe inp).cleanupRan = true ∧
      (∀ id ∈ cleanupSections (linesOf (ex "uci show data_sender")),
        delCmd id ∈ (runValidate ex probe inp).trace ∧
        isDeleteCmd (delCmd id) = true) ∧
      (∀ id : String,
        id ∈ cleanupSections (linesOf (ex "uci show data_sender")) ↔
        (id ≠ "settings" ∧
          ∃ l ∈ linesOf (ex "uci show data_sender"),
            cleanLineId? l = some id)) ∧
      (cleanupSections (linesOf (ex "uci show data_sender")) ≠ [] →
        "uci commit data_sender" ∈ (runValidate ex probe inp).trace ∧
        "/etc/init.d/data_sender restart" ∈ (runValidate ex probe inp).trace)) ∧
    (inp.testType ≠ some "ssh" →
      (runValidate ex probe inp).cleanupRan = false ∧
      ∀ c ∈ (runValidate ex probe inp).trace, isDeleteCmd c = false) := by
  rw [runValidate_config ex probe inp h]
  constructor
  · intro hssh
    have hb : (inp.testType == some "ssh") = true := by simp [hssh]
    refine ⟨hb, ?_, fun id => mem_cleanupSections _ id, ?_⟩
    · intro id hid
      refine ⟨?_, isDeleteCmd_delCmd id⟩
      show delCmd id ∈ _ ++ _ ++ _
      simp only [hb, if_true]
      exact List.mem_append_right _ (delCmd_mem_cleanupRun ex id hid)
    · intro hne
      obtain ⟨hcm, hrm⟩ := commit_restart_mem_cleanupRun ex hne
      constructor
      · show "uci commit data_sender" ∈ _ ++ _ ++ _
        simp only [hb, if_true]
        exact List.mem_append_right _ hcm
      · show "/etc/init.d/data_sender restart" ∈ _ ++ _ ++ _
        simp only [hb, if_true]
        exact List.mem_append_right _ hrm
  · intro hnssh
    have hb : (inp.testType == some "ssh") = false :=
      beq_eq_false_iff_ne.mpr hnssh
    refine ⟨hb, ?_⟩
    intro c hc
    have hc2 : c ∈ (mqttPartOf ex inp).2 ++ (dtsPartOf ex probe inp).2 := by
      have := hc
      simp only [hb, Bool.false_eq_true, if_false, List.append_nil] at this
      exact this
    rcases List.mem_append.mp hc2 with h1 | h2
    · exact no_delete_mqttPart ex inp c h1
    · exact no_delete_dtsPart ex probe inp c h2

/-- Witness for C10's amended statement. -/
theorem c10_cleanup_frame_witness :
    (runValidate exDevice false c10winp).cleanupRan = true :=
  ((c10_cleanup_frame_amended exDevice false c10winp (Or.inl rfl)).1 rfl).1
end WirelessValidator
